import Mathlib

/-!
# Flowcell layout mapper: `make_layout` and the aggregation step of `spatial_heatmap`

Shallow embedding of `src/nanoplotter/nanoplotter.py`, functions `make_layout`
(lines 357-368) and the aggregation loop of `spatial_heatmap` (lines 379-382).

Channel IDs are embedded as `Int` (observations may be arbitrary integers,
including zero and negatives).  Grids are lists of rows.
-/

set_option maxRecDepth 100000
set_option maxHeartbeats 4000000

/-- The first list of the source zip:
`zip([33, 481, 417, 353, 289, 225, 161, 97], ...)`. -/
def topSeeds : List Int := [33, 481, 417, 353, 289, 225, 161, 97]

/-- The second list of the source zip:
`zip(..., [8, 456, 392, 328, 264, 200, 136, 72])`. -/
def bottomSeeds : List Int := [8, 456, 392, 328, 264, 200, 136, 72]

/-- `list(range(s, s + 8, 1))`: the ascending run of 8 consecutive IDs. -/
def ascRun (s : Int) : List Int := (List.range 8).map (fun t => s + t)

/-- `list(range(s, s - 8, -1))`: the descending run of 8 consecutive IDs. -/
def descRun (s : Int) : List Int := (List.range 8).map (fun t => s - t)

/-- `layoutlist` as built by the nested loop of `make_layout`:
for each `(i, j)` in the zip and each `n in range(4)`, one 16-value row
`list(range(i + n*8, i + n*8 + 8, 1)) + list(range(j + n*8, j + n*8 - 8, -1))`. -/
def layoutlist : List (List Int) :=
  (topSeeds.zip bottomSeeds).flatMap (fun p =>
    (List.range 4).map (fun n =>
      ascRun (p.1 + n * 8) ++ descRun (p.2 + n * 8)))

/-- `make_layout`: `np.array(layoutlist).transpose()` — the 16x32 layout grid. -/
def make_layout : List (List Int) := layoutlist.transpose

/-- `np.zeros((16, 32))`: the initial activity grid. -/
def zerosGrid : List (List Nat) := List.replicate 16 (List.replicate 32 0)

/-- One iteration of the aggregation loop:
`activityData[np.where(layout == entry)] = valueCounts[entry]` — every cell of
the accumulator whose layout cell equals `entry` is set to the count `c`. -/
def setMatching (layout : List (List Int)) (acc : List (List Nat))
    (entry : Int) (c : Nat) : List (List Nat) :=
  List.zipWith (fun lrow arow =>
    List.zipWith (fun lv av => if lv = entry then c else av) lrow arow) layout acc

/-- The aggregation step of `spatial_heatmap`:
start from `np.zeros((16, 32))` and, for each distinct value `entry` occurring
in the observations (the keys of `pd.value_counts`), set every cell whose
layout value equals `entry` to the occurrence count of `entry`. -/
def aggregate (layout : List (List Int)) (obs : List Int) : List (List Nat) :=
  obs.dedup.foldl (fun acc entry => setMatching layout acc entry (obs.count entry))
    zerosGrid

/-- Read the activity-grid cell at row `r`, column `c` (0 outside the grid). -/
def getCell (g : List (List Nat)) (r c : Nat) : Nat := (g.getD r []).getD c 0

/-- Read the layout-grid cell at row `r`, column `c` (0 outside the grid). -/
def getChan (g : List (List Int)) (r c : Nat) : Int := (g.getD r []).getD c 0

/-- Sum of all cells of an activity grid. -/
def gridSum (g : List (List Nat)) : Nat := g.flatten.sum

/-- Apply `f` to every cell of a layout grid. -/
def mapGrid (f : Int → Nat) (g : List (List Int)) : List (List Nat) :=
  g.map (fun row => row.map f)

/-- The list `[1, 2, ..., 512]` of all valid channel IDs. -/
def rangeList : List Int := (List.range 512).map (fun (k : Nat) => (k : Int) + 1)

/-- The layout grid as described by the spec wording: for each block
`k = 0..7` with seeds `top_seed[k]` and `bottom_seed[k]`, and each sub-index
`n = 0..3`, one 16-value row made of the ascending run
`top_seed[k] + n*8 .. top_seed[k] + n*8 + 7` followed by the descending run
`bottom_seed[k] + n*8` down to `bottom_seed[k] + n*8 - 7`; the 32 rows of 16
values are then transposed. -/
def build_layout_spec : List (List Int) :=
  ((List.range 8).flatMap (fun k =>
    (List.range 4).map (fun n =>
      ((List.range 8).map (fun d =>
        ([33, 481, 417, 353, 289, 225, 161, 97].getD k 0 : Int) + n * 8 + d)) ++
      ((List.range 8).map (fun d =>
        ([8, 456, 392, 328, 264, 200, 136, 72].getD k 0 : Int) + n * 8 - d))))).transpose

/-- Flattened layout, sorted ascending, is exactly `[1, ..., 512]`. -/
theorem layout_sorted :
    make_layout.flatten.insertionSort (fun a b => a ≤ b) = rangeList := by
  decide

/-- The flattened layout is a permutation of `[1, ..., 512]`. -/
theorem layout_perm : make_layout.flatten.Perm rangeList := by
  have h := (List.perm_insertionSort (fun a b : Int => a ≤ b) make_layout.flatten).symm
  rw [layout_sorted] at h
  exact h

/-- `zipWith f l (l.map g)` acts cell-wise. -/
theorem zipWith_map_self {α β γ : Type} (f : α → β → γ) (g : α → β) :
    ∀ l : List α, List.zipWith f l (l.map g) = l.map (fun x => f x (g x)) := by
  intro l
  induction l with
  | nil => rfl
  | cons x xs ih => simp [List.zipWith, ih]

/-- One pass of the aggregation loop over a cell-wise accumulator is cell-wise. -/
theorem setMatching_mapGrid (g : List (List Int)) (f : Int → Nat) (e : Int) (c : Nat) :
    setMatching g (mapGrid f g) e c =
      mapGrid (fun v => if v = e then c else f v) g := by
  unfold setMatching mapGrid
  rw [zipWith_map_self]
  apply List.map_congr_left
  intro row _
  rw [zipWith_map_self]

/-- The whole aggregation fold over a cell-wise start is cell-wise. -/
theorem foldl_setMatching (g : List (List Int)) (cnt : Int → Nat) :
    ∀ (entries : List Int) (f : Int → Nat),
      entries.foldl (fun acc e => setMatching g acc e (cnt e)) (mapGrid f g) =
        mapGrid (fun v => entries.foldl (fun a e => if v = e then cnt e else a) (f v)) g := by
  intro entries
  induction entries with
  | nil => intro f; rfl
  | cons e rest ih =>
    intro f
    simp only [List.foldl_cons]
    rw [setMatching_mapGrid, ih]

/-- Folding the per-cell update over entries not containing `v` changes nothing. -/
theorem cell_foldl_not_mem (cnt : Int → Nat) (v : Int) :
    ∀ (entries : List Int) (a : Nat), v ∉ entries →
      entries.foldl (fun a e => if v = e then cnt e else a) a = a := by
  intro entries
  induction entries with
  | nil => intro a _; rfl
  | cons e rest ih =>
    intro a hv
    simp only [List.mem_cons, not_or] at hv
    simp only [List.foldl_cons, if_neg hv.1]
    exact ih a hv.2

/-- Folding the per-cell update over duplicate-free entries containing `v`
yields `cnt v`. -/
theorem cell_foldl_mem (cnt : Int → Nat) (v : Int) :
    ∀ (entries : List Int) (a : Nat), entries.Nodup → v ∈ entries →
      entries.foldl (fun a e => if v = e then cnt e else a) a = cnt v := by
  intro entries
  induction entries with
  | nil => intro a _ h; exact absurd h (List.not_mem_nil v)
  | cons e rest ih =>
    intro a hnd hv
    rw [List.nodup_cons] at hnd
    simp only [List.foldl_cons]
    by_cases hve : v = e
    · subst hve
      rw [if_pos rfl]
      exact cell_foldl_not_mem cnt v rest (cnt v) hnd.1
    · rw [if_neg hve]
      exact ih a hnd.2 ((List.mem_cons.mp hv).resolve_left hve)

/-- The per-cell fold over the distinct observed values computes the
occurrence count of the cell value. -/
theorem cell_foldl_dedup (obs : List Int) (v : Int) :
    obs.dedup.foldl (fun a e => if v = e then obs.count e else a) 0 = obs.count v := by
  by_cases hv : v ∈ obs
  · exact cell_foldl_mem (obs.count ·) v obs.dedup 0 obs.nodup_dedup (List.mem_dedup.mpr hv)
  · rw [cell_foldl_not_mem (obs.count ·) v obs.dedup 0 (fun h => hv (List.mem_dedup.mp h))]
    exact (List.count_eq_zero.mpr hv).symm

/-- The initial zero grid is the cell-wise zero grid over the layout. -/
theorem zerosGrid_eq : zerosGrid = mapGrid (fun _ => 0) make_layout := by
  decide

/-- Characterization of the aggregation step: each cell of the result is the
occurrence count, in the observations, of the channel ID in the layout cell. -/
theorem aggregate_eq_counts (obs : List Int) :
    aggregate make_layout obs = mapGrid (fun v => obs.count v) make_layout := by
  unfold aggregate
  rw [zerosGrid_eq, foldl_setMatching]
  unfold mapGrid
  apply List.map_congr_left
  intro row _
  apply List.map_congr_left
  intro v _
  exact cell_foldl_dedup obs v

/-- Membership in `[1, ..., 512]` is exactly the valid channel-ID range. -/
theorem mem_rangeList (x : Int) : x ∈ rangeList ↔ 1 ≤ x ∧ x ≤ 512 := by
  unfold rangeList
  simp only [List.mem_map, List.mem_range]
  constructor
  · rintro ⟨k, hk, rfl⟩
    omega
  · rintro ⟨h1, h2⟩
    exact ⟨(x - 1).toNat, by omega, by omega⟩

/-- `[1, ..., 512]` has no duplicates. -/
theorem rangeList_nodup : rangeList.Nodup := by
  apply List.Nodup.map
  · intro a b h
    simp only [] at h
    omega
  · exact List.nodup_range 512

/-- The flattened layout has no duplicates. -/
theorem layout_flatten_nodup : make_layout.flatten.Nodup :=
  layout_perm.nodup_iff.mpr rangeList_nodup

/-- Membership in the flattened layout is exactly the range 1..512. -/
theorem mem_layout_flatten (x : Int) :
    x ∈ make_layout.flatten ↔ 1 ≤ x ∧ x ≤ 512 :=
  layout_perm.mem_iff.trans (mem_rangeList x)

/-- Each channel ID occurs in the flattened layout once when in 1..512,
never otherwise. -/
theorem count_layout_flatten (x : Int) :
    make_layout.flatten.count x = if 1 ≤ x ∧ x ≤ 512 then 1 else 0 := by
  by_cases hx : 1 ≤ x ∧ x ≤ 512
  · rw [if_pos hx]
    exact List.count_eq_one_of_mem layout_flatten_nodup ((mem_layout_flatten x).mpr hx)
  · rw [if_neg hx]
    exact List.count_eq_zero.mpr (fun h => hx ((mem_layout_flatten x).mp h))

/-- Summing a pointwise sum of two cell functions splits. -/
theorem sum_map_add (f g : Int → Nat) :
    ∀ l : List Int, (l.map (fun v => f v + g v)).sum = (l.map f).sum + (l.map g).sum := by
  intro l
  induction l with
  | nil => rfl
  | cons x xs ih => simp only [List.map_cons, List.sum_cons, ih]; omega

/-- Summing the indicator of `x` over a list counts the occurrences of `x`. -/
theorem sum_map_indicator (x : Int) :
    ∀ l : List Int, (l.map (fun v => if v = x then (1 : Nat) else 0)).sum = l.count x := by
  intro l
  induction l with
  | nil => rfl
  | cons y ys ih =>
    simp only [List.map_cons, List.sum_cons, ih]
    by_cases hyx : y = x
    · rw [if_pos hyx, hyx, List.count_cons_self]
      omega
    · rw [if_neg hyx, List.count_cons_of_ne (fun h => hyx h.symm)]
      omega

/-- Summing the all-zero cell function gives zero. -/
theorem sum_map_zero : ∀ l : List Int, (l.map (fun _ => (0 : Nat))).sum = 0 := by
  intro l
  induction l with
  | nil => rfl
  | cons a t iht => simp [iht]

/-- Summing the observation counts of every cell of the flattened layout counts
the in-range observations. -/
theorem sum_counts (obs : List Int) :
    (make_layout.flatten.map (fun v => obs.count v)).sum =
      obs.countP (fun x => decide (1 ≤ x ∧ x ≤ 512)) := by
  induction obs with
  | nil => simpa [List.count_nil] using sum_map_zero make_layout.flatten
  | cons x rest ih =>
    have hc : ∀ v : Int, (x :: rest).count v =
        rest.count v + (if v = x then 1 else 0) := by
      intro v
      by_cases hvx : v = x
      · subst hvx
        simp [List.count_cons_self]
      · simp only [List.count_cons_of_ne hvx, if_neg hvx, Nat.add_zero]
    simp only [hc]
    rw [sum_map_add, ih, sum_map_indicator, count_layout_flatten x, List.countP_cons]
    by_cases hx : 1 ≤ x ∧ x ≤ 512
    · rw [if_pos hx, if_pos (by simpa using hx)]
    · rw [if_neg hx, if_neg (by simpa using hx)]

/-- Reading a mapped row at an in-bounds column applies the cell function. -/
theorem getD_map_row (f : Int → Nat) :
    ∀ (l : List Int) (c : Nat), c < l.length → (l.map f).getD c 0 = f (l.getD c 0) := by
  intro l
  induction l with
  | nil => intro c hc; exact absurd hc (by simp)
  | cons a t ih =>
    intro c hc
    cases c with
    | zero => rfl
    | succ m =>
      simp only [List.map_cons, List.getD_cons_succ]
      exact ih m (by simpa using hc)

/-- Reading a mapped grid at an in-bounds cell applies the cell function. -/
theorem getCell_mapGrid (f : Int → Nat) :
    ∀ (g : List (List Int)) (r c : Nat), r < g.length → c < (g.getD r []).length →
      getCell (mapGrid f g) r c = f (getChan g r c) := by
  intro g
  induction g with
  | nil => intro r c hr _; exact absurd hr (by simp)
  | cons row rows ih =>
    intro r c hr hc
    cases r with
    | zero =>
      unfold getCell getChan mapGrid
      simp only [List.map_cons, List.getD_cons_zero]
      exact getD_map_row f row c (by simpa using hc)
    | succ m =>
      unfold getCell getChan mapGrid at ih ⊢
      simp only [List.map_cons, List.getD_cons_succ]
      exact ih m c (by simpa using hr) (by simpa using hc)

/-- Cell-wise equal functions on the layout give equal grids. -/
theorem mapGrid_congr (f g : Int → Nat) (gr : List (List Int))
    (h : ∀ v ∈ gr.flatten, f v = g v) : mapGrid f gr = mapGrid g gr := by
  unfold mapGrid
  apply List.map_congr_left
  intro row hrow
  apply List.map_congr_left
  intro v hv
  exact h v (List.mem_flatten.mpr ⟨row, hrow, hv⟩)

/-- The layout grid has 16 rows. -/
theorem layout_len : make_layout.length = 16 := by decide

/-- Every row of the layout grid has 32 cells. -/
theorem layout_rows_len : ∀ row ∈ make_layout, row.length = 32 := by decide

/-- Each of the 16 rows of the layout grid, read with a default, has 32 cells. -/
theorem layout_row_getD_len : ∀ r, r < 16 → (make_layout.getD r []).length = 32 := by
  decide

/-- The sum of an activity grid built cell-wise over the layout. -/
theorem gridSum_mapGrid (f : Int → Nat) (g : List (List Int)) :
    gridSum (mapGrid f g) = (g.flatten.map f).sum := by
  unfold gridSum mapGrid
  rw [← List.map_flatten]

/-- C1: `make_layout` returns a 16x32 grid in which every integer from 1 to 512
appears exactly once: the flattened grid, sorted ascending, equals the list
`[1, ..., 512]`. -/
theorem C1_layout_bijection :
    make_layout.flatten.insertionSort (fun a b => a ≤ b) = rangeList ∧
      make_layout.length = 16 ∧ ∀ row ∈ make_layout, row.length = 32 :=
  ⟨layout_sorted, layout_len, layout_rows_len⟩

/-- C2: `make_layout` builds, for each block seed pair and sub-index, one
16-value row of an ascending run followed by a descending run, and transposes
the resulting 32 rows of 16 values into the final 16-row by 32-column grid:
it equals the grid built exactly as the spec words it. -/
theorem C2_layout_construction :
    make_layout = build_layout_spec ∧
      make_layout.length = 16 ∧ ∀ row ∈ make_layout, row.length = 32 :=
  ⟨by decide, layout_len, layout_rows_len⟩

/-- C3: for every observation sequence, the sum of all cells of the activity
grid equals the number of observations whose value lies in 1..512. -/
theorem C3_sum_is_inrange_count (obs : List Int) :
    gridSum (aggregate make_layout obs) =
      (obs.filter (fun x => decide (1 ≤ x ∧ x ≤ 512))).length := by
  rw [aggregate_eq_counts, gridSum_mapGrid, sum_counts, List.countP_eq_length_filter]

/-- C4: aggregating the empty observation sequence yields the all-zero 16x32
grid. -/
theorem C4_empty_all_zero :
    aggregate make_layout [] = List.replicate 16 (List.replicate 32 0) := by
  decide

/-- C5: for any valid channel ID `c` in 1..512, aggregating `[c]` produces a
grid whose cell is 1 exactly where the layout holds `c` and 0 everywhere else,
and `c` occurs at exactly one layout position. -/
theorem C5_singleton (c : Int) (h1 : 1 ≤ c) (h2 : c ≤ 512) :
    (∀ r, r < 16 → ∀ cc, cc < 32 →
      getCell (aggregate make_layout [c]) r cc =
        if getChan make_layout r cc = c then 1 else 0) ∧
    make_layout.flatten.count c = 1 := by
  constructor
  · intro r hr cc hcc
    rw [aggregate_eq_counts]
    rw [getCell_mapGrid _ make_layout r cc (by rw [layout_len]; exact hr)
      (by rw [layout_row_getD_len r hr]; exact hcc)]
    by_cases hv : getChan make_layout r cc = c
    · rw [if_pos hv, hv]
      simp
    · rw [if_neg hv]
      exact List.count_eq_zero.mpr (by simpa using hv)
  · rw [count_layout_flatten, if_pos ⟨h1, h2⟩]

/-- Witness for C5 at the concrete channel ID 33. -/
theorem C5_singleton_witness :
    (1 : Int) ≤ 33 ∧ (33 : Int) ≤ 512 ∧
    ((∀ r, r < 16 → ∀ cc, cc < 32 →
      getCell (aggregate make_layout [33]) r cc =
        if getChan make_layout r cc = 33 then 1 else 0) ∧
    make_layout.flatten.count 33 = 1) :=
  ⟨by decide, by decide, C5_singleton 33 (by decide) (by decide)⟩

/-- C6 counterexample: on observations `[33, 33, 8]` the activity-grid cell at
row 0, column 15 is not 1 (channel 8 is not at row 0, column 15 of the
transposed layout). -/
theorem C6_counterexample :
    ¬ getCell (aggregate make_layout [33, 33, 8]) 0 15 = 1 := by
  decide

/-- C6 (amended): aggregating `[33, 33, 8]` yields the grid that is 2 at
row 0, column 0 (channel 33), 1 at row 8, column 0 (channel 8), and 0
everywhere else. -/
theorem C6_example_grid :
    aggregate make_layout [33, 33, 8] =
      ((List.replicate 16 (List.replicate 32 0)).set 0
          ((List.replicate 32 (0 : Nat)).set 0 2)).set 8
        ((List.replicate 32 (0 : Nat)).set 0 1) := by
  decide

/-- C7 counterexample: the aggregation step reports no dropped-observation
count — observing the out-of-range channel 0 (one dropped observation)
produces exactly the same output as observing nothing (zero dropped
observations), so no warning count is part of the result. -/
theorem C7_counterexample :
    aggregate make_layout [0] = aggregate make_layout [] ∧
      ¬ (1 ≤ (0 : Int) ∧ (0 : Int) ≤ 512) :=
  ⟨by decide, by decide⟩

/-- C7 (amended): observations outside 1..512 are dropped silently and without
fault: the aggregation output equals the output on the in-range-filtered
sequence, and no dropped count is reported. -/
theorem C7_silent_drop (obs : List Int) :
    aggregate make_layout obs =
      aggregate make_layout (obs.filter (fun x => decide (1 ≤ x ∧ x ≤ 512))) := by
  rw [aggregate_eq_counts, aggregate_eq_counts]
  apply mapGrid_congr
  intro v hv
  exact (List.count_filter (by simpa using (mem_layout_flatten v).mp hv)).symm

/-- C8: `make_layout` is deterministic — any two grids produced by it are
identical. -/
theorem C8_deterministic (g1 g2 : List (List Int))
    (h1 : g1 = make_layout) (h2 : g2 = make_layout) : g1 = g2 := by
  rw [h1, h2]

/-- Witness for C8: two runs of `make_layout` agree. -/
theorem C8_deterministic_witness : make_layout = make_layout :=
  C8_deterministic make_layout make_layout rfl rfl

/-- C9: both operations are total — `make_layout` is a well-defined 16x32 grid
and the aggregation step returns a well-defined 16x32 grid on every (finite)
observation sequence. -/
theorem C9_total_shape :
    (make_layout.length = 16 ∧ ∀ row ∈ make_layout, row.length = 32) ∧
    ∀ obs : List Int, (aggregate make_layout obs).length = 16 ∧
      ∀ row ∈ aggregate make_layout obs, row.length = 32 := by
  refine ⟨⟨layout_len, layout_rows_len⟩, ?_⟩
  intro obs
  rw [aggregate_eq_counts]
  constructor
  · unfold mapGrid
    rw [List.length_map, layout_len]
  · intro row hrow
    unfold mapGrid at hrow
    rcases List.mem_map.mp hrow with ⟨orig, horig, rfl⟩
    rw [List.length_map]
    exact layout_rows_len orig horig

/-- C10: the aggregation step is order-invariant — permuted observation
sequences yield identical activity grids. -/
theorem C10_perm_invariant (obs obs' : List Int) (h : obs.Perm obs') :
    aggregate make_layout obs = aggregate make_layout obs' := by
  rw [aggregate_eq_counts, aggregate_eq_counts]
  apply mapGrid_congr
  intro v _
  exact h.count_eq v

/-- Witness for C10 on the concrete permutation `[33, 8] ~ [8, 33]`. -/
theorem C10_perm_invariant_witness :
    ([33, 8] : List Int).Perm [8, 33] ∧
      aggregate make_layout [33, 8] = aggregate make_layout [8, 33] :=
  ⟨List.Perm.swap 8 33 [], C10_perm_invariant [33, 8] [8, 33] (List.Perm.swap 8 33 [])⟩
